import Mathlib

/-!
Verification of the inbound-message pipeline of the assistant-runtime
repository: signature verification (HMAC-SHA-256 over raw bytes),
conversation store semantics, the per-message handler, the escalation
callback handler, and the LLM gateway's fallback contract.

Bytes are modelled as `Nat` values below 256 in a `List`; 32-bit machine
words are `Nat` reduced modulo `2 ^ 32` at every arithmetic step, exactly
as Go's `uint32` wraps.  Go strings that only ever carry ASCII (headers,
hex digests, the fixed tags) are modelled as Lean `String`s whose
code-point list coincides with the Go byte string.
-/

namespace AssistantRuntime

abbrev Bytes := List Nat

/-! ## SHA-256 (FIPS 180-4), as used by Go's crypto/sha256 -/

/-- Reduce to a 32-bit word, the wrap-around of Go's `uint32`. -/
def w32 (n : Nat) : Nat := n % 4294967296

/-- 32-bit addition with wrap-around. -/
def wadd (a b : Nat) : Nat := (a + b) % 4294967296

/-- Rotate a 32-bit word right by `n`. -/
def rotr (n x : Nat) : Nat := ((x >>> n) ||| (x <<< (32 - n))) % 4294967296

def bsig0 (x : Nat) : Nat := (rotr 2 x) ^^^ (rotr 13 x) ^^^ (rotr 22 x)

def bsig1 (x : Nat) : Nat := (rotr 6 x) ^^^ (rotr 11 x) ^^^ (rotr 25 x)

def ssig0 (x : Nat) : Nat := (rotr 7 x) ^^^ (rotr 18 x) ^^^ (x >>> 3)

def ssig1 (x : Nat) : Nat := (rotr 17 x) ^^^ (rotr 19 x) ^^^ (x >>> 10)

def chf (x y z : Nat) : Nat := (x &&& y) ^^^ ((x ^^^ 0xffffffff) &&& z)

def majf (x y z : Nat) : Nat := (x &&& y) ^^^ (x &&& z) ^^^ (y &&& z)

/-- The 64 SHA-256 round constants (FIPS 180-4 §4.2.2), written in
decimal. -/
def sha256K : List Nat :=
  [1116352408, 1899447441, 3049323471, 3921009573, 961987163,
   1508970993, 2453635748, 2870763221, 3624381080, 310598401,
   607225278, 1426881987, 1925078388, 2162078206, 2614888103,
   3248222580, 3835390401, 4022224774, 264347078, 604807628,
   770255983, 1249150122, 1555081692, 1996064986, 2554220882,
   2821834349, 2952996808, 3210313671, 3336571891, 3584528711,
   113926993, 338241895, 666307205, 773529912, 1294757372,
   1396182291, 1695183700, 1986661051, 2177026350, 2456956037,
   2730485921, 2820302411, 3259730800, 3345764771, 3516065817,
   3600352804, 4094571909, 275423344, 430227734, 506948616,
   659060556, 883997877, 958139571, 1322822218, 1537002063,
   1747873779, 1955562222, 2024104815, 2227730452, 2361852424,
   2428436474, 2756734187, 3204031479, 3329325298]

/-- The SHA-256 initial hash value (FIPS 180-4 §5.3.3), in decimal. -/
def sha256H0 : List Nat :=
  [1779033703, 3144134277, 1013904242, 2773480762,
   1359893119, 2600822924, 528734635, 1541459225]

/-- Big-endian 8-byte encoding of the message bit length. -/
def lenBytes64 (bitLen : Nat) : Bytes :=
  [(bitLen >>> 56) % 256, (bitLen >>> 48) % 256, (bitLen >>> 40) % 256,
   (bitLen >>> 32) % 256, (bitLen >>> 24) % 256, (bitLen >>> 16) % 256,
   (bitLen >>> 8) % 256, bitLen % 256]

/-- SHA-256 padding: `0x80`, zeros to 56 mod 64, then the bit length. -/
def sha256Pad (msg : Bytes) : Bytes :=
  msg ++ [0x80] ++ List.replicate ((64 - (msg.length + 9) % 64) % 64) 0
      ++ lenBytes64 (8 * msg.length)

/-- Group bytes into big-endian 32-bit words (input length a multiple of 4). -/
def bytesToWords : Bytes → List Nat
  | b0 :: b1 :: b2 :: b3 :: rest =>
      (((b0 % 256) <<< 24) ||| ((b1 % 256) <<< 16) ||| ((b2 % 256) <<< 8)
        ||| (b3 % 256)) :: bytesToWords rest
  | _ => []

/-- Group words into 16-word blocks (input length a multiple of 16). -/
def wordsToBlocks : List Nat → List (List Nat)
  | w0 :: w1 :: w2 :: w3 :: w4 :: w5 :: w6 :: w7 ::
    w8 :: w9 :: w10 :: w11 :: w12 :: w13 :: w14 :: w15 :: rest =>
      [w0, w1, w2, w3, w4, w5, w6, w7, w8, w9, w10, w11, w12, w13, w14, w15]
        :: wordsToBlocks rest
  | _ => []

/-- Extend the 16-word block to the 64-word message schedule, `n` words at a
time appended at the end. -/
def extendSched : Nat → List Nat → List Nat
  | 0, ws => ws
  | n + 1, ws =>
      let t := ws.length
      extendSched n (ws ++ [wadd (wadd (ssig1 (ws.getD (t - 2) 0)) (ws.getD (t - 7) 0))
        (wadd (ssig0 (ws.getD (t - 15) 0)) (ws.getD (t - 16) 0))])

def msgSched (block : List Nat) : List Nat := extendSched 48 block

/-- The eight working variables of the compression loop. -/
structure Sha8 where
  a : Nat
  b : Nat
  c : Nat
  d : Nat
  e : Nat
  f : Nat
  g : Nat
  h : Nat

/-- One round of the SHA-256 compression function; `kw` is the pair of the
round constant and the schedule word. -/
def roundStep (st : Sha8) (kw : Nat × Nat) : Sha8 :=
  let t1 := wadd (wadd (wadd st.h (bsig1 st.e)) (wadd (chf st.e st.f st.g) kw.1)) kw.2
  let t2 := wadd (bsig0 st.a) (majf st.a st.b st.c)
  ⟨wadd t1 t2, st.a, st.b, st.c, wadd st.d t1, st.e, st.f, st.g⟩

/-- Compress one 512-bit block into the running hash value. -/
def compressBlock (hs : List Nat) (block : List Nat) : List Nat :=
  let ws := msgSched block
  let fin := (sha256K.zip ws).foldl roundStep
    ⟨hs.getD 0 0, hs.getD 1 0, hs.getD 2 0, hs.getD 3 0,
     hs.getD 4 0, hs.getD 5 0, hs.getD 6 0, hs.getD 7 0⟩
  [wadd (hs.getD 0 0) fin.a, wadd (hs.getD 1 0) fin.b,
   wadd (hs.getD 2 0) fin.c, wadd (hs.getD 3 0) fin.d,
   wadd (hs.getD 4 0) fin.e, wadd (hs.getD 5 0) fin.f,
   wadd (hs.getD 6 0) fin.g, wadd (hs.getD 7 0) fin.h]

/-- Big-endian byte serialization of a 32-bit word. -/
def wordBE (w : Nat) : Bytes :=
  [(w >>> 24) % 256, (w >>> 16) % 256, (w >>> 8) % 256, w % 256]

/-- SHA-256 of a byte string, as a 32-byte digest. -/
def sha256 (msg : Bytes) : Bytes :=
  ((wordsToBlocks (bytesToWords (sha256Pad msg))).foldl compressBlock sha256H0).flatMap wordBE

/-! ## HMAC-SHA-256, as used by Go's crypto/hmac -/

/-- Normalize the key to one block: hash if longer than 64 bytes, then
zero-pad to 64. -/
def hmacKey (key : Bytes) : Bytes :=
  let k := if 64 < key.length then sha256 key else key
  k ++ List.replicate (64 - k.length) 0

/-- HMAC-SHA-256 of `msg` under `key`. -/
def hmacSha256 (key msg : Bytes) : Bytes :=
  let k := hmacKey key
  sha256 ((k.map (fun b => b ^^^ 0x5c)) ++ sha256 ((k.map (fun b => b ^^^ 0x36)) ++ msg))

/-! ## Hex encoding, Go's `fmt.Sprintf "%x"` on a byte slice -/

def hexDigit (n : Nat) : Char :=
  if n < 10 then Char.ofNat (48 + n) else Char.ofNat (87 + n)

def hexByte (b : Nat) : List Char := [hexDigit (b / 16 % 16), hexDigit (b % 16)]

def hexOfBytes (bs : Bytes) : String := String.mk (bs.flatMap hexByte)

/-- Bytes of an ASCII Go string: code points coincide with bytes. -/
def strBytes (s : String) : Bytes := s.data.map Char.toNat

set_option maxRecDepth 100000

/-- FIPS 180-4 test vector. -/
theorem sha256_abc_vector :
    hexOfBytes (sha256 (strBytes "abc")) =
      "ba7816bf8f01cfea414140de5dae2223b00361a396177a9cb410ff61f20015ad" := by
  decide

/-- RFC 2202-style HMAC-SHA-256 test vector. -/
theorem hmac_sha256_vector :
    hexOfBytes (hmacSha256 (strBytes "key")
        (strBytes "The quick brown fox jumps over the lazy dog")) =
      "f7bc83f430538424b13298e6aa6fb143ef4d59a14946175997479dbc2d1a3cd8" := by
  decide

/-! ## Signature verification

`verifyMetaSignature` and `verifySlackSignature` embed the two functions of
the same names in `handlers/whatsapp.go` and `handlers/slack.go`.  Go's
`hmac.Equal` is constant-time byte-slice equality, modelled as string
equality (timing is outside the embedding); `strings.TrimPrefix` is
`stripSigTag`. -/

/-- `strings.TrimPrefix`: drop `tag` when it is a prefix, else return `s`
unchanged. -/
def stripSigTag (tag s : String) : String :=
  if tag.data.isPrefixOf s.data then String.mk (s.data.drop tag.data.length) else s

/-- `verifyMetaSignature` from `handlers/whatsapp.go`: empty header fails;
otherwise the header, with an optional `sha256=` tag stripped, must equal
the lowercase hex HMAC-SHA-256 of the raw body under the app secret. -/
def verifyMetaSignature (secret : String) (body : Bytes) (header : String) : Bool :=
  if header = "" then false
  else
    let expected := stripSigTag "sha256=" header
    let computed := hexOfBytes (hmacSha256 (strBytes secret) body)
    computed == expected

/-- Fold decimal digits left to right; any non-digit character fails. -/
def decDigits (cs : List Char) : Option Nat :=
  cs.foldl (fun acc c =>
    match acc with
    | none => none
    | some n =>
        if 48 ≤ c.toNat ∧ c.toNat ≤ 57 then some (10 * n + (c.toNat - 48)) else none)
    (some 0)

/-- Go's `strconv.ParseInt(s, 10, 64)`: optional sign, at least one digit,
digits only, and the value must fit a signed 64-bit integer (Go reports a
range error otherwise, which the caller treats as invalid). -/
def parseInt64 (s : String) : Option Int :=
  match s.data with
  | [] => none
  | c :: rest =>
      let signed : Bool × List Char :=
        if c = '-' then (true, rest)
        else if c = '+' then (false, rest) else (false, c :: rest)
      match signed.2, decDigits signed.2 with
      | [], _ => none
      | _, none => none
      | _ :: _, some n =>
          if signed.1 then
            if n ≤ 9223372036854775808 then some (-(n : Int)) else none
          else
            if n ≤ 9223372036854775807 then some (n : Int) else none

/-- `verifySlackSignature` from `handlers/slack.go`.  `now` stands for
`time.Now().Unix()`.  Empty timestamp or signature fails; an unparsable
timestamp fails; a timestamp more than 300 seconds older than `now` fails;
otherwise the presented signature must equal
`v0=` ++ hex(HMAC(secret, "v0:" ++ timestamp ++ ":" ++ body)). -/
def verifySlackSignature (signingSecret timestamp : String) (body : Bytes)
    (signature : String) (now : Int) : Bool :=
  if timestamp = "" || signature = "" then false
  else
    match parseInt64 timestamp with
    | none => false
    | some ts =>
        if 300 < now - ts then false
        else
          let baseStr := strBytes ("v0:" ++ timestamp ++ ":") ++ body
          let computed := "v0=" ++ hexOfBytes (hmacSha256 (strBytes signingSecret) baseStr)
          computed == signature

/-- The correctly computed inbound-channel signature header for a body. -/
def correctMetaSig (secret : String) (body : Bytes) : String :=
  "sha256=" ++ hexOfBytes (hmacSha256 (strBytes secret) body)

/-- The correctly computed callback-channel signature for a timestamp and
body. -/
def correctSlackSig (secret timestamp : String) (body : Bytes) : String :=
  "v0=" ++ hexOfBytes (hmacSha256 (strBytes secret) (strBytes ("v0:" ++ timestamp ++ ":") ++ body))

/-! ## Data model (`models/models.go`) -/

/-- A row of the `messages` table.  The `created_at` column defaults to the
insertion instant and is represented by position in the row list (rowid
order), which `GetRecentMessages` uses as its tie-break anyway. -/
structure Message where
  ID : String
  ConversationID : String
  Role : String
  Content : String
  deriving DecidableEq

/-- `models.ExtractedData`, the structured quote fields. -/
structure ExtractedData where
  Address : String
  ElevatorAccess : String
  Stairs : String
  Inventory : String
  deriving DecidableEq

/-- `models.LLMResponse`, the gateway's reply contract. -/
structure LLMResponse where
  ReplyToUser : String
  ExtractedData : AssistantRuntime.ExtractedData
  Action : String
  deriving DecidableEq

structure WAText where
  Body : String
  deriving DecidableEq

/-- `models.WAMessage`.  The Go field `Type` is `MType` here (`Type` is a
Lean keyword). -/
structure WAMessage where
  From : String
  ID : String
  MType : String
  Text : Option WAText
  deriving DecidableEq

structure WAValue where
  Messages : List WAMessage
  deriving DecidableEq

structure WAChange where
  Value : WAValue
  deriving DecidableEq

structure WAEntry where
  Changes : List WAChange
  deriving DecidableEq

structure WAPayload where
  Object : String
  Entry : List WAEntry
  deriving DecidableEq

structure SlackUser where
  ID : String
  Username : String
  deriving DecidableEq

structure SlackAction where
  ActionID : String
  Value : String
  deriving DecidableEq

/-- `models.SlackInteractivePayload`.  The Go field `Type` is `PType`. -/
structure SlackInteractivePayload where
  PType : String
  User : SlackUser
  Actions : List SlackAction
  deriving DecidableEq

/-! ## Conversation store (`database/db.go`)

The three SQLite tables, with rows in insertion (rowid) order.  Each store
method is embedded with its SQL semantics: `ON CONFLICT DO NOTHING`,
`UPDATE ... WHERE`, primary-key and (enabled) foreign-key constraints.  A
constraint violation surfaces in Go as a non-nil error and leaves the
table unchanged; the `...Ok` predicates say when a statement succeeds. -/

structure DBState where
  convs : List (String × String)
  msgs : List Message
  quotes : List (String × String)
  deriving DecidableEq

/-- `SELECT ... WHERE <key> = ?` over a keyed row list: the first matching
row's payload (keys are unique in both keyed tables). -/
def lookupBy : List (String × String) → String → Option String
  | [], _ => none
  | p :: l, id => if p.1 == id then some p.2 else lookupBy l id

/-- `GetConversationStatus`: `none` models `sql.ErrNoRows`. -/
def convStatus (s : DBState) (id : String) : Option String :=
  lookupBy s.convs id

def convExists (s : DBState) (id : String) : Bool :=
  (lookupBy s.convs id).isSome

/-- `UpsertConversation`: `INSERT INTO conversations(id) VALUES(?)
ON CONFLICT(id) DO NOTHING`; a fresh row starts `ACTIVE`. -/
def upsertConversation (s : DBState) (id : String) : DBState :=
  if convExists s id then s else { s with convs := s.convs ++ [(id, "ACTIVE")] }

/-- `PauseConversation`: `UPDATE conversations SET status = PAUSED WHERE
id = ?` — a no-op when the row is absent. -/
def pauseConversation (s : DBState) (id : String) : DBState :=
  { s with convs := s.convs.map (fun p => if p.1 == id then (p.1, "PAUSED") else p) }

/-- `MessageExists`: `SELECT COUNT(1) FROM messages WHERE id = ? > 0`. -/
def messageExists (s : DBState) (id : String) : Bool :=
  s.msgs.any (fun m => m.ID == id)

/-- When `INSERT INTO messages` succeeds: primary key fresh and the
referenced conversation present (foreign keys are on). -/
def insertMessageOk (s : DBState) (m : Message) : Bool :=
  !(messageExists s m.ID) && convExists s m.ConversationID

/-- `InsertMessage`: append on success, unchanged on a constraint error. -/
def insertMessage (s : DBState) (m : Message) : DBState :=
  if insertMessageOk s m then { s with msgs := s.msgs ++ [m] } else s

/-- The `json_dump` stored for a conversation. -/
def quoteData (s : DBState) (id : String) : Option String :=
  lookupBy s.quotes id

/-- `UpsertQuoteData`: `INSERT ... ON CONFLICT(conversation_id) DO UPDATE
SET json_dump = excluded.json_dump`; the fresh-insert arm checks the
foreign key. -/
def upsertQuoteData (s : DBState) (id j : String) : DBState :=
  if (lookupBy s.quotes id).isSome then
    { s with quotes := s.quotes.map (fun p => if p.1 == id then (p.1, j) else p) }
  else if convExists s id then { s with quotes := s.quotes ++ [(id, j)] }
  else s

/-- `GetRecentMessages`: newest `n` rows of the conversation
(`ORDER BY created_at DESC, rowid DESC LIMIT n`), reversed to
chronological order. -/
def getRecentMessages (s : DBState) (id : String) (n : Nat) : List Message :=
  (((s.msgs.filter (fun m => m.ConversationID == id)).reverse).take n).reverse

/-! ## LLM gateway (`llm/deepseek.go`) -/

/-- Outcome of the HTTP exchange with the completion backend — the oracle
for everything outside the process.  `httpResp status decoded` is a
delivered response: `decoded = none` when the response body fails to
decode as `deepSeekResponse`; otherwise each list entry is one choice,
carrying the JSON parse result of its `message.content` (`none` when that
inner document is unparsable as `LLMResponse`). -/
inductive DSOutcome where
  | httpErr
  | httpResp (status : Nat) (decoded : Option (List (Option LLMResponse)))
  deriving DecidableEq

/-- The zero `ExtractedData`: every field the empty string. -/
def emptyED : ExtractedData := ⟨"", "", "", ""⟩

/-- `fallback()` from `llm/deepseek.go`: the canned apology, zero-valued
extracted data, action `continue`. -/
def llmFallback : LLMResponse :=
  ⟨"Sorry, I ran into a technical issue. Our team will follow up with you shortly.",
   emptyED, "continue"⟩

/-- `validAction` from `llm/deepseek.go`. -/
def validAction (a : String) : Bool :=
  a == "continue" || a == "handoff" || a == "schedule"

/-- `llm.Call`.  The request built from `apiKey` and `history` influences
only the oracle `outcome`; the pair's second component is whether a
non-nil error was returned.  Marshalling the request of strings cannot
fail in Go, so that error arm is unreachable and not modelled. -/
def llmCall (apiKey : String) (history : List Message) (outcome : DSOutcome) :
    LLMResponse × Bool :=
  match apiKey, history, outcome with
  | _, _, .httpErr => (llmFallback, true)
  | _, _, .httpResp status decoded =>
      if status ≠ 200 then (llmFallback, true)
      else
        match decoded with
        | none => (llmFallback, true)
        | some [] => (llmFallback, true)
        | some (none :: _) => (llmFallback, true)
        | some (some r :: _) =>
            let r1 := if r.ReplyToUser = "" then
              { r with ReplyToUser := "I'm looking into that, one moment!" } else r
            let r2 := if validAction r1.Action then r1 else { r1 with Action := "continue" }
            (r2, false)

/-! ## JSON serialization of the extracted data

Go's `json.Marshal` on `ExtractedData`: fields in declaration order under
their struct-tag keys, with the default HTML-escaping string encoder. -/

def jsonEscapeChar (c : Char) : List Char :=
  if c = '"' then ['\\', '"']
  else if c = '\\' then ['\\', '\\']
  else if c = '\n' then ['\\', 'n']
  else if c = '\r' then ['\\', 'r']
  else if c = '\t' then ['\\', 't']
  else if c.toNat < 32 ∨ c = '<' ∨ c = '>' ∨ c = '&' then
    ['\\', 'u', '0', '0', hexDigit (c.toNat / 16 % 16), hexDigit (c.toNat % 16)]
  else if c.toNat = 0x2028 ∨ c.toNat = 0x2029 then
    ['\\', 'u', '2', '0', '2', hexDigit (c.toNat % 16)]
  else [c]

def jsonStr (s : String) : String :=
  "\"" ++ String.mk (s.data.flatMap jsonEscapeChar) ++ "\""

def encodeExtractedData (d : ExtractedData) : String :=
  "\x7b" ++ jsonStr "address" ++ ":" ++ jsonStr d.Address
    ++ "," ++ jsonStr "elevator_access" ++ ":" ++ jsonStr d.ElevatorAccess
    ++ "," ++ jsonStr "stairs" ++ ":" ++ jsonStr d.Stairs
    ++ "," ++ jsonStr "inventory" ++ ":" ++ jsonStr d.Inventory ++ "\x7d"

/-! ## Per-message pipeline (`handleMessage` in `handlers/whatsapp.go`) -/

/-- An observable side effect of per-message handling, in program order.
`sendWA dest body` is `sendWhatsApp(cfg, to, body)` (Go's `to` parameter
is `dest`: `to` is a Lean keyword). -/
inductive Effect where
  | sendWA (dest body : String)
  | llmInvoked
  | slackNotified (phone : String)
  deriving DecidableEq

def unsupportedReply : String := "Sorry, I can only handle text messages right now."

def pausedReply : String :=
  "Our team is handling your request directly. We'll be in touch shortly!"

def bookingSuffix : String :=
  "\n\nYou can pick a time for an on-site assessment here: https://bookings.clearoutspaces.ca/clearoutspaces/assessment"

/-- `handleMessage`.  `outcome` is the oracle for the DeepSeek exchange and
`assistantMsgID` the identifier synthesized from the wall clock for the
stored assistant reply.  Returns the datastore after the call together
with the ordered side effects.  The per-conversation lock and the call
timeouts are not part of the sequential embedding; datastore errors occur
exactly at constraint violations (the `...Ok` predicates), matching the
`if err != nil` returns, and the errors Go ignores (`_ =`) are statements
whose failure leaves the table unchanged. -/
def handleMessage (apiKey : String) (outcome : DSOutcome) (assistantMsgID : String)
    (s : DBState) (msg : WAMessage) : DBState × List Effect :=
  if msg.MType != "text" || msg.Text.isNone then
    (s, [.sendWA msg.From unsupportedReply])
  else
    let body := (msg.Text.getD ⟨""⟩).Body
    let phone := msg.From
    if messageExists s msg.ID then (s, [])
    else
      let s1 := upsertConversation s phone
      match convStatus s1 phone with
      | none => (s1, [])
      | some status =>
          if status = "PAUSED" then
            (insertMessage s1 ⟨msg.ID, phone, "user", body⟩, [.sendWA phone pausedReply])
          else
            let m : Message := ⟨msg.ID, phone, "user", body⟩
            if !(insertMessageOk s1 m) then (s1, [])
            else
              let s2 := insertMessage s1 m
              let hist := getRecentMessages s2 phone 20
              let resp := (llmCall apiKey hist outcome).1
              let s3 := insertMessage s2 ⟨assistantMsgID, phone, "assistant", resp.ReplyToUser⟩
              let s4 := upsertQuoteData s3 phone (encodeExtractedData resp.ExtractedData)
              let sends : List Effect :=
                if resp.Action = "handoff" then
                  [.slackNotified phone, .sendWA phone resp.ReplyToUser]
                else if resp.Action = "schedule" then
                  [.sendWA phone (resp.ReplyToUser ++ bookingSuffix)]
                else [.sendWA phone resp.ReplyToUser]
              (s4, .llmInvoked :: sends)

/-! ## Batch dispatch (`processInbound` in `handlers/whatsapp.go`) -/

/-- Every message contained in a payload, in the nested loop order of
`processInbound`. -/
def allPayloadMessages (p : WAPayload) : List WAMessage :=
  p.Entry.flatMap (fun e => e.Changes.flatMap (fun c => c.Value.Messages))

/-- The early-return guard of `processInbound`:
`len(Entry) == 0 || len(Entry[0].Changes) == 0 ||
len(Entry[0].Changes[0].Value.Messages) == 0` (short-circuit indexing
modelled with `headD`). -/
def receiptGuard (p : WAPayload) : Bool :=
  p.Entry.length == 0 ||
    ((p.Entry.headD ⟨[]⟩).Changes.length == 0 ||
      ((p.Entry.headD ⟨[]⟩).Changes.headD ⟨⟨[]⟩⟩).Value.Messages.length == 0)

/-- `processInbound` as the sequence of messages it passes to
`handleMessage`.  The raw-body unmarshal is taken as given (the payload
argument); an unmarshal error handles nothing, like the guard. -/
def processInbound (p : WAPayload) : List WAMessage :=
  if receiptGuard p then [] else allPayloadMessages p

/-! ## Escalation callback (`HandleSlackInteractive` in `handlers/slack.go`) -/

/-- The HTTP response of the interactive handler: status code, the `text`
field, and whether the JSON body carries `replace_original: true` (plain
error bodies have it false). -/
structure SlackResp where
  status : Nat
  text : String
  replaceOriginal : Bool
  deriving DecidableEq

/-- `HandleSlackInteractive` after signature verification and payload
decoding: dispatch on the first action.  `PauseConversation` cannot fail
in the errorless store, so the 500 arm is unreachable here. -/
def handleSlackInteractive (s : DBState) (p : SlackInteractivePayload) :
    DBState × SlackResp :=
  match p.Actions with
  | [] => (s, ⟨400, "no actions", false⟩)
  | a :: _ =>
      if a.ActionID ≠ "take_over_chat" then (s, ⟨200, "", false⟩)
      else
        let phone := a.Value
        match convStatus s phone with
        | none => (s, ⟨200, "⚠️ Conversation not found.", true⟩)
        | some status =>
            if status = "PAUSED" then (s, ⟨200, "ℹ️ Chat was already paused.", true⟩)
            else
              (pauseConversation s phone,
                ⟨200, "✅ Chat paused. " ++ p.User.Username ++ " has taken over the conversation.",
                 true⟩)

/-! ## Store-operation sequences (for the state-machine invariant) -/

/-- The write operations the handlers perform against the store. -/
inductive StoreOp where
  | upsertConv (id : String)
  | pauseConv (id : String)
  | insertMsg (m : Message)
  | upsertQuote (id : String) (j : String)
  deriving DecidableEq

def applyOp (s : DBState) : StoreOp → DBState
  | .upsertConv id => upsertConversation s id
  | .pauseConv id => pauseConversation s id
  | .insertMsg m => insertMessage s m
  | .upsertQuote id j => upsertQuoteData s id j

def applyOps (s : DBState) (ops : List StoreOp) : DBState := ops.foldl applyOp s

/-! ## Helper lemmas about the store -/

theorem lookupBy_append (l1 l2 : List (String × String)) (c : String) :
    lookupBy (l1 ++ l2) c =
      match lookupBy l1 c with
      | some v => some v
      | none => lookupBy l2 c := by
  induction l1 with
  | nil => simp [lookupBy]
  | cons p l ih =>
      by_cases hp : (p.1 == c) = true <;> simp [lookupBy, hp, ih]

theorem lookupBy_pause (l : List (String × String)) (id c : String) :
    lookupBy (l.map fun p => if p.1 == id then (p.1, "PAUSED") else p) c =
      (lookupBy l c).map (fun st => if c = id then "PAUSED" else st) := by
  induction l with
  | nil => rfl
  | cons p l ih =>
      obtain ⟨k, v⟩ := p
      by_cases hki : (k == id) = true <;> by_cases hkc : (k == c) = true
      · have h1 : k = c := by simpa [beq_iff_eq] using hkc
        have h2 : k = id := by simpa [beq_iff_eq] using hki
        have hcid : c = id := by rw [← h1, h2]
        simp [lookupBy, hki, hkc, hcid]
      · simp only [lookupBy, List.map_cons]
        simp [hki, hkc]
        simpa using ih
      · have hcid : ¬ c = id := by
          have h1 : k = c := by simpa [beq_iff_eq] using hkc
          have h2 : ¬ k = id := by simpa [beq_iff_eq] using hki
          rw [← h1]; exact h2
        simp [lookupBy, hki, hkc, hcid]
      · simp only [lookupBy, List.map_cons]
        simp [hki, hkc]
        simpa using ih

theorem convExists_of_status {s : DBState} {id st : String}
    (h : convStatus s id = some st) : convExists s id = true := by
  unfold convStatus at h
  unfold convExists
  rw [h]
  rfl

theorem upsertConversation_of_exists {s : DBState} {id : String}
    (h : convExists s id = true) : upsertConversation s id = s := by
  unfold upsertConversation
  simp [h]

theorem insertMessage_convs (s : DBState) (m : Message) :
    (insertMessage s m).convs = s.convs := by
  unfold insertMessage
  split <;> rfl

theorem upsertQuoteData_convs (s : DBState) (id j : String) :
    (upsertQuoteData s id j).convs = s.convs := by
  unfold upsertQuoteData
  split
  · rfl
  · split <;> rfl

theorem convStatus_pause (s : DBState) (id c : String) :
    convStatus (pauseConversation s id) c =
      (convStatus s c).map (fun st => if c = id then "PAUSED" else st) := by
  unfold convStatus pauseConversation
  exact lookupBy_pause s.convs id c

theorem convStatus_upsert (s : DBState) (id c : String) :
    convStatus (upsertConversation s id) c = convStatus s c ∨
      (convStatus s c = none ∧ c = id ∧
        convStatus (upsertConversation s id) c = some "ACTIVE") := by
  unfold upsertConversation
  by_cases he : convExists s id = true
  · simp [he]
  · simp [he]
    unfold convStatus
    simp only
    rw [lookupBy_append]
    cases hf : lookupBy s.convs c with
    | some v => left; rfl
    | none =>
        by_cases hc : c = id
        · right
          subst hc
          exact ⟨rfl, rfl, by simp [lookupBy]⟩
        · left
          simp [lookupBy, beq_iff_eq]
          exact fun h => hc h.symm

theorem convStatus_insertMessage (s : DBState) (m : Message) (c : String) :
    convStatus (insertMessage s m) c = convStatus s c := by
  unfold convStatus
  rw [insertMessage_convs]

theorem convStatus_upsertQuote (s : DBState) (id j : String) (c : String) :
    convStatus (upsertQuoteData s id j) c = convStatus s c := by
  unfold convStatus
  rw [upsertQuoteData_convs]

/-! ## C1: batch handling of inbound payloads -/

/-- A delivery where the first entry's first change is a receipt (no
messages) and the second entry carries a real text message. -/
def receiptThenMessage : WAPayload :=
  ⟨"whatsapp_business_account",
   [⟨[⟨⟨[]⟩⟩]⟩,
    ⟨[⟨⟨[⟨"15551234567", "wamid.batch1", "text", some ⟨"hi"⟩⟩]⟩⟩]⟩]⟩

/-- C1: the early-return guard of `processInbound` looks only at the first
entry's first change, so a batch whose first change is a delivery receipt
is dropped whole even though it contains a message: the handler loop
handles nothing while the payload does contain a message entry. -/
theorem processInbound_drops_batched_message :
    processInbound receiptThenMessage = [] ∧
      allPayloadMessages receiptThenMessage ≠ [] := by
  decide

/-! ## C4: idempotent duplicate delivery -/

/-- C4: a text message whose identifier is already stored makes
`handleMessage` exit right after the idempotency lookup: the store is
untouched (no second row) and no effect — no model call, no outbound
send — is produced, for any gateway outcome. -/
theorem handleMessage_duplicate_noop (apiKey aid : String) (outcome : DSOutcome)
    (s : DBState) (msg : WAMessage)
    (htype : msg.MType = "text") (htext : msg.Text.isSome = true)
    (hdup : messageExists s msg.ID = true) :
    handleMessage apiKey outcome aid s msg = (s, []) := by
  obtain ⟨t, ht⟩ := Option.isSome_iff_exists.mp htext
  unfold handleMessage
  simp [htype, ht, hdup]

/-- Witness for C4 at a concrete store and message. -/
theorem handleMessage_duplicate_noop_witness :
    handleMessage "k" .httpErr "a1"
        ⟨[("15550001111", "ACTIVE")], [⟨"wamid.d", "15550001111", "user", "hi"⟩], []⟩
        ⟨"15550001111", "wamid.d", "text", some ⟨"hi again"⟩⟩ =
      (⟨[("15550001111", "ACTIVE")], [⟨"wamid.d", "15550001111", "user", "hi"⟩], []⟩, []) :=
  handleMessage_duplicate_noop "k" "a1" .httpErr _ _ (by decide) (by decide) (by decide)

theorem lookupBy_setval (l : List (String × String)) (id nv c : String) :
    lookupBy (l.map fun p => if p.1 == id then (p.1, nv) else p) c =
      (lookupBy l c).map (fun v => if c = id then nv else v) := by
  induction l with
  | nil => rfl
  | cons p l ih =>
      obtain ⟨k, v⟩ := p
      by_cases hki : (k == id) = true <;> by_cases hkc : (k == c) = true
      · have h1 : k = c := by simpa [beq_iff_eq] using hkc
        have h2 : k = id := by simpa [beq_iff_eq] using hki
        have hcid : c = id := by rw [← h1, h2]
        simp [lookupBy, hki, hkc, hcid]
      · simp only [lookupBy, List.map_cons]
        simp [hki, hkc]
        simpa using ih
      · have hcid : ¬ c = id := by
          have h1 : k = c := by simpa [beq_iff_eq] using hkc
          have h2 : ¬ k = id := by simpa [beq_iff_eq] using hki
          rw [← h1]; exact h2
        simp [lookupBy, hki, hkc, hcid]
      · simp only [lookupBy, List.map_cons]
        simp [hki, hkc]
        simpa using ih

/-- After `UpsertQuoteData` for a present conversation, the stored dump is
the new value — unconditionally overwriting any prior row. -/
theorem quoteData_upsert_self {s : DBState} (id j : String)
    (hconv : convExists s id = true) :
    quoteData (upsertQuoteData s id j) id = some j := by
  unfold quoteData upsertQuoteData
  by_cases hq : (lookupBy s.quotes id).isSome = true
  · obtain ⟨v, hv⟩ := Option.isSome_iff_exists.mp hq
    simp only [hq, if_pos]
    rw [lookupBy_setval, hv]
    simp
  · rw [if_neg hq, if_pos hconv]
    have hn : lookupBy s.quotes id = none := by
      cases hl : lookupBy s.quotes id with
      | none => rfl
      | some v => rw [hl] at hq; simp at hq
    show lookupBy (s.quotes ++ [(id, j)]) id = some j
    rw [lookupBy_append, hn]
    simp [lookupBy]

/-! ## C5: the take-over callback -/

/-- C5: for a decoded callback whose first action is `take_over_chat`: an
unknown conversation draws a 200 "not found" warning with no mutation; an
already-PAUSED conversation draws a 200 "already paused" note with no
mutation; otherwise the conversation is paused and the confirmation names
the acting operator. -/
theorem handleSlackInteractive_takeover (s : DBState) (p : SlackInteractivePayload)
    (a : SlackAction) (rest : List SlackAction)
    (hact : p.Actions = a :: rest) (hid : a.ActionID = "take_over_chat") :
    (convStatus s a.Value = none →
      handleSlackInteractive s p = (s, ⟨200, "⚠️ Conversation not found.", true⟩)) ∧
    (convStatus s a.Value = some "PAUSED" →
      handleSlackInteractive s p = (s, ⟨200, "ℹ️ Chat was already paused.", true⟩)) ∧
    (∀ st, convStatus s a.Value = some st → st ≠ "PAUSED" →
      handleSlackInteractive s p =
        (pauseConversation s a.Value,
          ⟨200, "✅ Chat paused. " ++ p.User.Username ++ " has taken over the conversation.",
            true⟩) ∧
      convStatus (pauseConversation s a.Value) a.Value = some "PAUSED") := by
  refine ⟨fun h => ?_, fun h => ?_, fun st h hne => ⟨?_, ?_⟩⟩
  · unfold handleSlackInteractive
    rw [hact]
    simp [hid, h]
  · unfold handleSlackInteractive
    rw [hact]
    simp [hid, h]
  · unfold handleSlackInteractive
    rw [hact]
    simp [hid, h, hne]
  · rw [convStatus_pause, h]
    simp

/-- Witness for C5: the three outcomes at concrete stores. -/
theorem handleSlackInteractive_takeover_witness :
    (handleSlackInteractive ⟨[], [], []⟩
        ⟨"block_actions", ⟨"U1", "maria"⟩, [⟨"take_over_chat", "15550003333"⟩]⟩ =
      (⟨[], [], []⟩, ⟨200, "⚠️ Conversation not found.", true⟩)) ∧
    (handleSlackInteractive ⟨[("15550003333", "PAUSED")], [], []⟩
        ⟨"block_actions", ⟨"U1", "maria"⟩, [⟨"take_over_chat", "15550003333"⟩]⟩ =
      (⟨[("15550003333", "PAUSED")], [], []⟩,
        ⟨200, "ℹ️ Chat was already paused.", true⟩)) ∧
    (handleSlackInteractive ⟨[("15550003333", "ACTIVE")], [], []⟩
        ⟨"block_actions", ⟨"U1", "maria"⟩, [⟨"take_over_chat", "15550003333"⟩]⟩ =
      (pauseConversation ⟨[("15550003333", "ACTIVE")], [], []⟩ "15550003333",
        ⟨200, "✅ Chat paused. maria has taken over the conversation.", true⟩)) :=
  ⟨(handleSlackInteractive_takeover ⟨[], [], []⟩ _ _ [] rfl rfl).1 (by decide),
   (handleSlackInteractive_takeover ⟨[("15550003333", "PAUSED")], [], []⟩ _ _ [] rfl rfl).2.1
     (by decide),
   ((handleSlackInteractive_takeover ⟨[("15550003333", "ACTIVE")], [], []⟩ _ _ [] rfl rfl).2.2
     "ACTIVE" (by decide) (by decide)).1⟩

/-! ## C6: the conversation state machine -/

theorem convStatus_applyOp_paused {s : DBState} {c : String} (op : StoreOp)
    (h : convStatus s c = some "PAUSED") :
    convStatus (applyOp s op) c = some "PAUSED" := by
  cases op with
  | upsertConv id =>
      rcases convStatus_upsert s id c with he | ⟨hn, _, _⟩
      · rw [applyOp, he, h]
      · rw [h] at hn
        exact Option.noConfusion hn
  | pauseConv id =>
      rw [applyOp, convStatus_pause, h]
      simp
  | insertMsg m => rw [applyOp, convStatus_insertMessage, h]
  | upsertQuote id j => rw [applyOp, convStatus_upsertQuote, h]

theorem convStatus_applyOp_isSome {s : DBState} {c : String} (op : StoreOp)
    (h : (convStatus s c).isSome = true) :
    (convStatus (applyOp s op) c).isSome = true := by
  cases op with
  | upsertConv id =>
      rcases convStatus_upsert s id c with he | ⟨_, _, ha⟩
      · rw [applyOp, he]
        exact h
      · rw [applyOp, ha]
        rfl
  | pauseConv id =>
      rw [applyOp, convStatus_pause]
      simpa using h
  | insertMsg m =>
      rw [applyOp, convStatus_insertMessage]
      exact h
  | upsertQuote id j =>
      rw [applyOp, convStatus_upsertQuote]
      exact h

theorem convStatus_applyOps_paused {c : String} (ops : List StoreOp) (s : DBState)
    (h : convStatus s c = some "PAUSED") :
    convStatus (applyOps s ops) c = some "PAUSED" := by
  induction ops generalizing s with
  | nil => exact h
  | cons op ops ih => exact ih _ (convStatus_applyOp_paused op h)

theorem convStatus_applyOps_isSome {c : String} (ops : List StoreOp) (s : DBState)
    (h : (convStatus s c).isSome = true) :
    (convStatus (applyOps s ops) c).isSome = true := by
  induction ops generalizing s with
  | nil => exact h
  | cons op ops ih => exact ih _ (convStatus_applyOp_isSome op h)

/-- C6: under every sequence of store operations, a PAUSED conversation
stays PAUSED, an existing conversation row is never deleted, and
`UpsertConversation` never changes the status of an existing row. -/
theorem conversation_state_machine (s : DBState) (c st id : String)
    (ops : List StoreOp) :
    (convStatus s c = some "PAUSED" →
      convStatus (applyOps s ops) c = some "PAUSED") ∧
    ((convStatus s c).isSome = true →
      (convStatus (applyOps s ops) c).isSome = true) ∧
    (convStatus s c = some st → convStatus (upsertConversation s id) c = some st) := by
  refine ⟨fun h => convStatus_applyOps_paused ops s h,
    fun h => convStatus_applyOps_isSome ops s h, fun h => ?_⟩
  rcases convStatus_upsert s id c with he | ⟨hn, _, _⟩
  · rw [he, h]
  · rw [h] at hn
    exact Option.noConfusion hn

/-- Witness for C6 on a concrete paused conversation and operation list. -/
theorem conversation_state_machine_witness :
    convStatus
        (applyOps ⟨[("15550004444", "PAUSED")], [], []⟩
          [.upsertConv "15550004444", .insertMsg ⟨"m1", "15550004444", "user", "hi"⟩,
            .upsertQuote "15550004444" "d", .pauseConv "other", .upsertConv "other"])
        "15550004444" = some "PAUSED" :=
  (conversation_state_machine ⟨[("15550004444", "PAUSED")], [], []⟩ "15550004444"
    "PAUSED" "x" _).1 (by decide)

/-! ## Gateway lemmas shared by the pipeline theorems -/

theorem validAction_iff (a : String) :
    validAction a = true ↔ (a = "continue" ∨ a = "handoff" ∨ a = "schedule") := by
  simp [validAction, Bool.or_eq_true, beq_iff_eq, or_assoc]

/-- Whenever `llm.Call` reports an error, the reply it pairs with it is the
fixed fallback. -/
theorem llmCall_err_fallback {apiKey : String} {history : List Message}
    {outcome : DSOutcome} (h : (llmCall apiKey history outcome).2 = true) :
    (llmCall apiKey history outcome).1 = llmFallback := by
  cases outcome with
  | httpErr => rfl
  | httpResp status decoded =>
      by_cases hs : status = 200
      · subst hs
        match decoded with
        | none => rfl
        | some [] => rfl
        | some (none :: rest) => rfl
        | some (some r :: rest) => simp [llmCall] at h
      · simp [llmCall, hs]

/-- Whenever `llm.Call` succeeds, the validated reply has a non-empty text
and a recognized action tag. -/
theorem llmCall_success_valid {apiKey : String} {history : List Message}
    {outcome : DSOutcome} (h : (llmCall apiKey history outcome).2 = false) :
    (llmCall apiKey history outcome).1.ReplyToUser ≠ "" ∧
      ((llmCall apiKey history outcome).1.Action = "continue" ∨
        (llmCall apiKey history outcome).1.Action = "handoff" ∨
        (llmCall apiKey history outcome).1.Action = "schedule") := by
  cases outcome with
  | httpErr => simp [llmCall] at h
  | httpResp status decoded =>
      by_cases hs : status = 200
      · subst hs
        match decoded with
        | none => simp [llmCall] at h
        | some [] => simp [llmCall] at h
        | some (none :: rest) => simp [llmCall] at h
        | some (some r :: rest) =>
            refine ⟨?_, ?_⟩
            · by_cases hr : r.ReplyToUser = "" <;>
                by_cases ha : validAction r.Action = true <;>
                  simp [llmCall, hr, ha]
            · by_cases hr : r.ReplyToUser = "" <;>
                by_cases ha : validAction r.Action = true <;>
                  simp [llmCall, hr, ha] <;>
                    exact (validAction_iff _).mp ha
      · simp [llmCall, hs] at h

/-! ## C2: the gateway never returns a nil reply -/

/-- C2: `llm.Call` is total over every exchange outcome.  Transport
failure, a non-200 status, an undecodable body, an empty choice list, or
unparsable structured content each return the fixed fallback (apology,
action `continue`) with an error; a success returns a reply whose text is
non-empty — an empty model text replaced by the holding message — and
whose action tag is in the recognized set, anything else coerced to
`continue`. -/
theorem llmCall_contract (apiKey : String) (history : List Message)
    (outcome : DSOutcome) (st : Nat) (ds : Option (List (Option LLMResponse)))
    (r : LLMResponse) (rest : List (Option LLMResponse)) :
    (llmCall apiKey history .httpErr = (llmFallback, true)) ∧
    (st ≠ 200 → llmCall apiKey history (.httpResp st ds) = (llmFallback, true)) ∧
    (llmCall apiKey history (.httpResp 200 none) = (llmFallback, true)) ∧
    (llmCall apiKey history (.httpResp 200 (some [])) = (llmFallback, true)) ∧
    (llmCall apiKey history (.httpResp 200 (some (none :: rest))) = (llmFallback, true)) ∧
    (llmFallback.ReplyToUser =
      "Sorry, I ran into a technical issue. Our team will follow up with you shortly." ∧
      llmFallback.Action = "continue") ∧
    ((llmCall apiKey history outcome).2 = true →
      (llmCall apiKey history outcome).1 = llmFallback) ∧
    ((llmCall apiKey history outcome).2 = false →
      (llmCall apiKey history outcome).1.ReplyToUser ≠ "" ∧
        ((llmCall apiKey history outcome).1.Action = "continue" ∨
          (llmCall apiKey history outcome).1.Action = "handoff" ∨
          (llmCall apiKey history outcome).1.Action = "schedule")) ∧
    (r.ReplyToUser = "" →
      (llmCall apiKey history (.httpResp 200 (some (some r :: rest)))).1.ReplyToUser =
        "I'm looking into that, one moment!") ∧
    (validAction r.Action = false →
      (llmCall apiKey history (.httpResp 200 (some (some r :: rest)))).1.Action =
        "continue") := by
  refine ⟨rfl, fun hst => by simp [llmCall, hst], rfl, rfl, rfl, by decide,
    fun h => llmCall_err_fallback h,
    fun h => llmCall_success_valid h,
    fun hr => ?_, fun ha => ?_⟩
  · by_cases ha : validAction r.Action = true <;> simp [llmCall, hr, ha]
  · by_cases hr : r.ReplyToUser = "" <;> simp [llmCall, hr, ha]

/-- Witness for C2: a 500 status yields the fallback with an error; an
empty model text on success is replaced by the holding message; a bogus
action tag is coerced. -/
theorem llmCall_contract_witness :
    llmCall "k" [] (.httpResp 500 none) = (llmFallback, true) ∧
      (llmCall "k" [] (.httpResp 200 (some [some ⟨"", emptyED, "bogus"⟩]))).1.ReplyToUser =
        "I'm looking into that, one moment!" ∧
      (llmCall "k" [] (.httpResp 200 (some [some ⟨"", emptyED, "bogus"⟩]))).1.Action =
        "continue" :=
  ⟨(llmCall_contract "k" [] .httpErr 500 none ⟨"", emptyED, "bogus"⟩ []).2.1 (by decide),
   (llmCall_contract "k" [] .httpErr 500 none ⟨"", emptyED, "bogus"⟩ []).2.2.2.2.2.2.2.2.1 rfl,
   (llmCall_contract "k" [] .httpErr 500 none ⟨"", emptyED, "bogus"⟩ []).2.2.2.2.2.2.2.2.2 (by decide)⟩

/-- The exchange outcomes `llm.Call` treats as failures, independent of the
request that was sent. -/
def llmErrOutcome : DSOutcome → Bool
  | .httpErr => true
  | .httpResp status decoded =>
      decide (status ≠ 200) ||
        (match decoded with
          | none => true
          | some [] => true
          | some (none :: _) => true
          | some (some _ :: _) => false)

theorem llmCall_of_err {outcome : DSOutcome} (h : llmErrOutcome outcome = true)
    (apiKey : String) (history : List Message) :
    llmCall apiKey history outcome = (llmFallback, true) := by
  cases outcome with
  | httpErr => rfl
  | httpResp status decoded =>
      by_cases hs : status = 200
      · subst hs
        match decoded with
        | none => rfl
        | some [] => rfl
        | some (none :: rest) => rfl
        | some (some r :: rest) => simp [llmErrOutcome] at h
      · simp [llmCall, hs]

/-! ## C3: PAUSED conversations stay away from the model gateway -/

/-- A PAUSED conversation whose next text message re-uses an identifier
already in the store. -/
def pausedDupStore : DBState :=
  ⟨[("15550002222", "PAUSED")], [⟨"wamid.p", "15550002222", "user", "old"⟩], []⟩

def pausedDupMsg : WAMessage :=
  ⟨"15550002222", "wamid.p", "text", some ⟨"hello again"⟩⟩

/-- C3 as stated fails: the idempotency check runs before the state check,
so a re-delivered text message of a PAUSED conversation is dropped at the
duplicate gate — nothing is persisted and the static handoff reply is not
sent, against the claim's promise for every text message of a PAUSED
conversation. -/
theorem paused_duplicate_counterexample :
    convStatus pausedDupStore "15550002222" = some "PAUSED" ∧
      pausedDupMsg.MType = "text" ∧ pausedDupMsg.Text.isSome = true ∧
      handleMessage "k" .httpErr "a1" pausedDupStore pausedDupMsg =
        (pausedDupStore, []) := by
  decide

/-- C3 amended: for every *non-duplicate* inbound text message of a PAUSED
conversation, the pipeline persists exactly the inbound message, emits
exactly the static handoff send, and never reaches the gateway (no
`llmInvoked` effect, no assistant row, no quote write), for any gateway
oracle. -/
theorem handleMessage_paused (apiKey aid : String) (outcome : DSOutcome)
    (s : DBState) (msg : WAMessage) (t : WAText)
    (htype : msg.MType = "text") (ht : msg.Text = some t)
    (hdup : messageExists s msg.ID = false)
    (hp : convStatus s msg.From = some "PAUSED") :
    handleMessage apiKey outcome aid s msg =
      ({ s with msgs := s.msgs ++ [⟨msg.ID, msg.From, "user", t.Body⟩] },
        [.sendWA msg.From pausedReply]) := by
  have hex := convExists_of_status hp
  have hu := upsertConversation_of_exists hex
  unfold handleMessage
  simp [htype, ht, hdup, hu, hp]
  unfold insertMessage insertMessageOk
  simp [hdup, hex]

/-- Witness for the amended C3 at a concrete store and message. -/
theorem handleMessage_paused_witness :
    handleMessage "k" .httpErr "a1"
        ⟨[("15550002222", "PAUSED")], [], []⟩
        ⟨"15550002222", "wamid.q", "text", some ⟨"are you there?"⟩⟩ =
      (⟨[("15550002222", "PAUSED")],
        [⟨"wamid.q", "15550002222", "user", "are you there?"⟩], []⟩,
        [.sendWA "15550002222" pausedReply]) :=
  handleMessage_paused "k" "a1" .httpErr _ _ ⟨"are you there?"⟩
    (by decide) (by decide) (by decide) (by decide)

/-! ## Signature-verifier lemmas -/

theorem append_ne_empty (t x : String) (h : t.data ≠ []) : ¬ (t ++ x = "") := by
  intro he
  have h2 := congrArg String.data he
  rw [String.data_append] at h2
  have h3 : t.data ++ x.data = ([] : List Char) := h2
  exact h (List.append_eq_nil.mp h3).1

theorem stripSigTag_append (tag x : String) : stripSigTag tag (tag ++ x) = x := by
  unfold stripSigTag
  have hp : tag.data.isPrefixOf (tag ++ x).data = true := by
    rw [String.data_append, List.isPrefixOf_iff_prefix]
    exact List.prefix_append tag.data x.data
  rw [if_pos hp, String.data_append, List.drop_left]

theorem verifyMeta_correct (secret : String) (body : Bytes) :
    verifyMetaSignature secret body (correctMetaSig secret body) = true := by
  unfold verifyMetaSignature correctMetaSig
  rw [if_neg (append_ne_empty "sha256=" _ (by decide))]
  simp [stripSigTag_append]

theorem verifyMeta_mismatch (secret : String) (body : Bytes) (header : String)
    (h : stripSigTag "sha256=" header ≠ hexOfBytes (hmacSha256 (strBytes secret) body)) :
    verifyMetaSignature secret body header = false := by
  unfold verifyMetaSignature
  by_cases hh : header = ""
  · rw [if_pos hh]
  · rw [if_neg hh]
    simp [beq_eq_false_iff_ne]
    exact Ne.symm h

theorem parseInt64_ne_empty {ts : String} {t : Int} (h : parseInt64 ts = some t) :
    ¬ ts = "" := by
  intro he
  rw [he] at h
  have h0 : parseInt64 "" = none := by decide
  rw [h0] at h
  exact Option.noConfusion h

theorem verifySlack_correct (secret ts : String) (body : Bytes) (now t : Int)
    (hp : parseInt64 ts = some t) (hfresh : now - t ≤ 300) :
    verifySlackSignature secret ts body (correctSlackSig secret ts body) now = true := by
  have hts : ¬ ts = "" := parseInt64_ne_empty hp
  have hsig : ¬ ("v0=" ++ hexOfBytes
      (hmacSha256 (strBytes secret) (strBytes ("v0:" ++ ts ++ ":") ++ body)) = "") :=
    append_ne_empty "v0=" _ (by decide)
  have hnlt : ¬ (300 < now - t) := not_lt.mpr hfresh
  unfold verifySlackSignature correctSlackSig
  simp [hts, hsig, hp, hnlt]

theorem verifySlack_stale (secret ts sig : String) (body : Bytes) (now t : Int)
    (hp : parseInt64 ts = some t) (hst : 300 < now - t) :
    verifySlackSignature secret ts body sig now = false := by
  have hts : ¬ ts = "" := parseInt64_ne_empty hp
  unfold verifySlackSignature
  by_cases hsig : sig = ""
  · simp [hsig]
  · simp [hts, hsig, hp, hst]

theorem verifySlack_noparse (secret ts sig : String) (body : Bytes) (now : Int)
    (hp : parseInt64 ts = none) :
    verifySlackSignature secret ts body sig now = false := by
  unfold verifySlackSignature
  by_cases hts : ts = ""
  · simp [hts]
  · by_cases hsig : sig = ""
    · simp [hsig]
    · simp [hts, hsig, hp]

theorem verifySlack_mismatch (secret ts sig : String) (body : Bytes) (now t : Int)
    (hp : parseInt64 ts = some t) (hm : sig ≠ correctSlackSig secret ts body) :
    verifySlackSignature secret ts body sig now = false := by
  have hts : ¬ ts = "" := parseInt64_ne_empty hp
  unfold verifySlackSignature
  by_cases hsig : sig = ""
  · simp [hsig]
  · by_cases hst : 300 < now - t
    · simp [hts, hsig, hp, hst]
    · simp [hts, hsig, hp, hst, beq_eq_false_iff_ne]
      exact fun he => hm he.symm

/-! ## C7: the signature-verification contract -/

/-- C7: a correctly computed signature verifies on both channels; an empty
presented signature, a hash mismatch (in particular any mutation of body
or secret that changes the digest), and — on the callback channel — an
absent, unparsable, or stale (more than 300 s old) timestamp each make
verification return false, the latter for every presented signature. -/
theorem signature_verification_contract (secret : String) (body body2 : Bytes)
    (header ts sig : String) (now t : Int) :
    (verifyMetaSignature secret body (correctMetaSig secret body) = true) ∧
    (verifyMetaSignature secret body "" = false) ∧
    (stripSigTag "sha256=" header ≠ hexOfBytes (hmacSha256 (strBytes secret) body) →
      verifyMetaSignature secret body header = false) ∧
    (hexOfBytes (hmacSha256 (strBytes secret) body2) ≠
        hexOfBytes (hmacSha256 (strBytes secret) body) →
      verifyMetaSignature secret body2 (correctMetaSig secret body) = false) ∧
    (verifySlackSignature secret "" body sig now = false) ∧
    (verifySlackSignature secret ts body "" now = false) ∧
    (parseInt64 ts = none → verifySlackSignature secret ts body sig now = false) ∧
    (parseInt64 ts = some t → 300 < now - t →
      verifySlackSignature secret ts body sig now = false) ∧
    (parseInt64 ts = some t → sig ≠ correctSlackSig secret ts body →
      verifySlackSignature secret ts body sig now = false) ∧
    (parseInt64 ts = some t → now - t ≤ 300 →
      verifySlackSignature secret ts body (correctSlackSig secret ts body) now = true) := by
  refine ⟨verifyMeta_correct secret body, by simp [verifyMetaSignature],
    verifyMeta_mismatch secret body header,
    fun hdiff => verifyMeta_mismatch secret body2 (correctMetaSig secret body) ?_,
    by unfold verifySlackSignature; simp,
    by unfold verifySlackSignature; simp,
    verifySlack_noparse secret ts sig body now,
    verifySlack_stale secret ts sig body now t,
    verifySlack_mismatch secret ts sig body now t,
    verifySlack_correct secret ts body now t⟩
  unfold correctMetaSig
  rw [stripSigTag_append]
  exact Ne.symm hdiff

/-- Witness for C7: a wrong presented header is rejected (the HMAC digest
is evaluated concretely), an unparsable timestamp is rejected, a stale
timestamp is rejected, and a fresh correctly signed callback verifies. -/
theorem signature_verification_contract_witness :
    verifyMetaSignature "sec" (strBytes "hi") "zzz" = false ∧
      verifySlackSignature "sec" "nope" (strBytes "b") "s" 0 = false ∧
      verifySlackSignature "sec" "0" (strBytes "b") "s" 1000 = false ∧
      verifySlackSignature "sec" "100" (strBytes "b")
        (correctSlackSig "sec" "100" (strBytes "b")) 0 = true :=
  ⟨(signature_verification_contract "sec" (strBytes "hi") [] "zzz" "" "" 0 0).2.2.1
      (by decide),
   (signature_verification_contract "sec" [] (strBytes "b") "" "nope" "s" 0 0).2.2.2.2.2.2.1
      (by decide),
   (signature_verification_contract "sec" [] (strBytes "b") "" "0" "s" 1000 0).2.2.2.2.2.2.2.1
      (by decide) (by decide),
   (signature_verification_contract "sec" [] (strBytes "b") "" "100" "" 0 100).2.2.2.2.2.2.2.2.2
      (by decide) (by decide)⟩

/-- A concrete single-bit mutation: `iello` is `hello` with the lowest bit
of its first byte flipped; the digests differ, so the original signature
is rejected for the mutated body. -/
theorem single_bit_flip_rejected :
    verifyMetaSignature "sec" (strBytes "iello")
      (correctMetaSig "sec" (strBytes "hello")) = false := by
  decide

/-! ## C10: the replay check is one-sided -/

/-- C10: the callback verifier rejects only timestamps strictly more than
300 seconds in the past; every parsed timestamp with `now - t ≤ 300` —
arbitrarily far in the future included — verifies whenever the presented
signature equals the computed one. -/
theorem slack_replay_check_one_sided (secret ts : String) (body : Bytes) (now t : Int)
    (hp : parseInt64 ts = some t) (hfresh : now - t ≤ 300) :
    verifySlackSignature secret ts body (correctSlackSig secret ts body) now = true :=
  verifySlack_correct secret ts body now t hp hfresh

/-- Witness for C10: a timestamp nearly 317 years in the future of
`now = 0` still verifies. -/
theorem slack_replay_check_one_sided_witness :
    parseInt64 "9999999999" = some 9999999999 ∧
      ((0 : Int) - 9999999999 ≤ 300) ∧
      verifySlackSignature "sec" "9999999999" (strBytes "payload")
        (correctSlackSig "sec" "9999999999" (strBytes "payload")) 0 = true :=
  ⟨by decide, by decide,
   slack_replay_check_one_sided "sec" "9999999999" (strBytes "payload") 0 9999999999
     (by decide) (by decide)⟩

/-! ## C9: the frame effect of a gateway failure -/

/-- C9: when the gateway exchange fails for an ACTIVE conversation (fresh
inbound identifier, fresh synthesized assistant identifier), the pipeline
still appends the fallback apology as an assistant row and overwrites the
conversation's quote row with the serialized all-empty-fields mapping,
then sends the apology; the stored extracted data after the call is the
empty mapping regardless of what was stored before. -/
theorem gateway_failure_frame_effect (apiKey aid : String) (outcome : DSOutcome)
    (s : DBState) (msg : WAMessage) (t : WAText)
    (htype : msg.MType = "text") (ht : msg.Text = some t)
    (hdup : messageExists s msg.ID = false)
    (hstat : convStatus s msg.From = some "ACTIVE")
    (herr : llmErrOutcome outcome = true)
    (haid : messageExists s aid = false) (hne : aid ≠ msg.ID) :
    handleMessage apiKey outcome aid s msg =
      (upsertQuoteData
        { s with msgs := s.msgs ++
            [⟨msg.ID, msg.From, "user", t.Body⟩,
              ⟨aid, msg.From, "assistant", llmFallback.ReplyToUser⟩] }
        msg.From (encodeExtractedData emptyED),
        [.llmInvoked, .sendWA msg.From llmFallback.ReplyToUser]) ∧
    quoteData (handleMessage apiKey outcome aid s msg).1 msg.From =
      some (encodeExtractedData emptyED) := by
  have hex := convExists_of_status hstat
  have hu := upsertConversation_of_exists hex
  have heq : handleMessage apiKey outcome aid s msg =
      (upsertQuoteData
        { s with msgs := s.msgs ++
            [⟨msg.ID, msg.From, "user", t.Body⟩,
              ⟨aid, msg.From, "assistant", llmFallback.ReplyToUser⟩] }
        msg.From (encodeExtractedData emptyED),
        [.llmInvoked, .sendWA msg.From llmFallback.ReplyToUser]) := by
    have hdup' := hdup
    have haid' := haid
    simp [messageExists] at hdup' haid'
    have hdupE : ¬ ∃ x ∈ s.msgs, x.ID = msg.ID := by
      rintro ⟨x, hx, he⟩
      exact hdup' x hx he
    unfold handleMessage
    simp [htype, ht, hdup, hu, hstat, llmCall_of_err herr, insertMessage,
      insertMessageOk, messageExists, hex, llmFallback, List.any_append,
      beq_iff_eq, hne, Ne.symm hne, hdup', haid']
    simp only [if_neg hdupE, if_pos hdup']
    have hasst : ∀ x ∈ s.msgs ++
        [(⟨msg.ID, msg.From, "user", t.Body⟩ : Message)], ¬ x.ID = aid := by
      intro x hx
      rcases List.mem_append.mp hx with h | h
      · exact haid' x h
      · rw [List.mem_singleton.mp h]
        exact Ne.symm hne
    rw [if_pos ⟨hasst, hex⟩]
    simp
  refine ⟨heq, ?_⟩
  rw [heq]
  exact quoteData_upsert_self _ _ hex

/-- Witness for C9: a transport failure on an ACTIVE conversation with a
previously non-empty quote row leaves the empty-fields mapping stored. -/
theorem gateway_failure_frame_effect_witness :
    quoteData
        (handleMessage "k" .httpErr "assist-1"
          ⟨[("15550005555", "ACTIVE")], [], [("15550005555", "old-data")]⟩
          ⟨"15550005555", "wamid.z", "text", some ⟨"hello"⟩⟩).1
        "15550005555" = some (encodeExtractedData emptyED) :=
  (gateway_failure_frame_effect "k" "assist-1" .httpErr
    ⟨[("15550005555", "ACTIVE")], [], [("15550005555", "old-data")]⟩
    ⟨"15550005555", "wamid.z", "text", some ⟨"hello"⟩⟩ ⟨"hello"⟩
    (by decide) (by decide) (by decide) (by decide) (by decide) (by decide)
    (by decide)).2

end AssistantRuntime
